import Mathlib

/-!
Verification of the kraken-core build engine specification against a shallow
embedding of the repository sources (`src/kraken/core/context.py`,
`src/kraken/core/task.py`, `src/kraken/core/project.py`).

Python objects are embedded as Lean structures, in-place mutation as functional
update, raised exceptions as `Except` error results, and iterators as lists in
yield order.  Definitions follow the control flow of the corresponding Python
function; where the deciding code is not part of the repository snapshot
(the `kraken.core.system.property` module behind `Property`), the definition is
modelled from the specification and says so in its doc comment.
-/

set_option autoImplicit false

namespace KrakenCore

/-! ## BuildError and the failure path of Context.execute (context.py 292-366) -/

/-- The message built by `Context.execute` when the graph is incomplete
(context.py 315-319): a single failed task renders as `task "X" failed`,
otherwise `tasks ` followed by the comma separated quoted paths, in the order
produced by `graph.tasks(failed=True)`, followed by ` failed`. -/
def failureMessage (failedPaths : List String) : String :=
  if failedPaths.length = 1 then
    "task \"" ++ failedPaths.head! ++ "\" failed"
  else
    "tasks " ++ String.intercalate ", " (failedPaths.map (fun p => "\"" ++ p ++ "\"")) ++ " failed"

/-- `BuildError` (context.py 357-365).  `__init__` stores `set(failed_tasks)`;
the Python set is modelled as a deduplicated list. -/
structure BuildErrorData where
  failedTasks : List String
  deriving DecidableEq

/-- `BuildError.__init__(failed_tasks)` for an iterable of strings. -/
def buildErrorInit (failedTasks : List String) : BuildErrorData :=
  ⟨failedTasks.dedup⟩

/-- Iterating a Python `str` yields its characters, each as a one-character
string (Python semantics of `iter(str)`). -/
def strIter (s : String) : List String :=
  s.toList.map (fun c => String.mk [c])

/-- The `BuildError` object raised by `Context.execute` (context.py 320): the
constructor argument is the pre-rendered message string, so `set(failed_tasks)`
collects the characters of the message. -/
def executeBuildError (failedPaths : List String) : BuildErrorData :=
  buildErrorInit (strIter (failureMessage failedPaths))

/-- `BuildError.__repr__` (context.py 361-365): one path renders as
`task "X" failed`, several render sorted. -/
def buildErrorRepr (e : BuildErrorData) : String :=
  if e.failedTasks.length = 1 then
    "task \"" ++ e.failedTasks.head! ++ "\" failed"
  else
    "tasks "
      ++ String.intercalate ", "
        ((e.failedTasks.mergeSort (fun a b => decide (a ≤ b))).map (fun p => "\"" ++ p ++ "\""))
      ++ " failed"

/-- C1: at the failing input — a run that finishes with exactly one FAILED
task, of path `:a` — the `BuildError` raised by `Context.execute` does not
carry the failed task's path in its failed-task set; the set holds the
characters of the rendered message instead, because `execute` passes the
message string where `BuildError.__init__` expects the iterable of failed
task paths. -/
theorem c1_execute_buildError_set_is_message_characters :
    ":a" ∉ (executeBuildError [":a"]).failedTasks ∧
      (executeBuildError [":a"]).failedTasks ≠ [":a"].dedup := by
  decide

/-! ## Context event bus (context.py 38-56, 322-354) -/

/-- `ContextEventType` (context.py 38-46). -/
inductive ContextEventType where
  | any
  | onProjectInit
  | onProjectLoaded
  | onProjectBeginFinalize
  | onProjectFinalized
  | onContextBeginFinalize
  | onContextFinalized
  deriving DecidableEq

/-- The per-type listener lists of `Context._listeners` (context.py 90);
listeners are identified by natural-number ids. -/
def Listeners : Type := ContextEventType → List Nat

/-- `Context.listen` (context.py 332-346): appends the listener to the list
kept for its event type. -/
def listen (ls : Listeners) (t : ContextEventType) (l : Nat) : Listeners :=
  fun u => if u = t then ls u ++ [l] else ls u

/-- A registration log replayed through `listen`, starting from no listeners
(the empty `defaultdict`). -/
def listenAll (log : List (ContextEventType × Nat)) : Listeners :=
  log.foldl (fun ls e => listen ls e.1 e.2) (fun _ => [])

/-- The `for` loop of `Context.trigger` (context.py 352-354): calls each
listener in order; `behavior l = some e` means listener `l` raises exception
`e`, which stops the loop and propagates.  Returns the listeners invoked, in
order, together with the propagated exception if any. -/
def runListeners {ε : Type} (behavior : Nat → Option ε) : List Nat → List Nat × Option ε
  | [] => ([], none)
  | l :: rest =>
    match behavior l with
    | some e => ([l], some e)
    | none =>
      let r := runListeners behavior rest
      (l :: r.1, r.2)

/-- `Context.trigger` (context.py 348-354): concatenates the listeners of the
wildcard type `any` with the listeners of the triggered type and calls them
in that order; exceptions are not caught. -/
def trigger {ε : Type} (behavior : Nat → Option ε) (ls : Listeners) (t : ContextEventType) :
    List Nat × Option ε :=
  runListeners behavior (ls ContextEventType.any ++ ls t)

/-! ## Task relationships (task.py 31-123) -/

/-- `_Relationship.other_task` is either a `Task` object — identified here by
its name; every use in this development stays inside a single project, where
member names are unique — or a lazily resolved selector string (task.py
100-102). -/
inductive RelTarget where
  | taskRef (name : String)
  | selector (sel : String)
  deriving DecidableEq

/-- `_Relationship` (task.py 31-37). -/
structure Relationship where
  otherTask : RelTarget
  strict : Bool
  inverse : Bool
  deriving DecidableEq

/-- The runtime value passed as `task_or_selector` to `Task.add_relationship`
(task.py 92-123): a `Task` object, a `str`, a non-string sequence of runtime
values, or a value of any other type. -/
inductive PyArg where
  | task (name : String)
  | str (sel : String)
  | seq (xs : List PyArg)
  | other

/-- `isinstance(x, Task)` for a runtime value. -/
def PyArg.isTask : PyArg → Bool
  | .task _ => true
  | _ => false

/-- The kinds of exception raised by the embedded operations. -/
inductive PyError where
  | typeError
  | valueError
  | runtimeError
  | finalizedError
  deriving DecidableEq

/-- `Task.add_relationship` (task.py 92-123).  A task or a selector string is
appended directly; for any other sequence, every element is type-checked by
the first loop (task.py 112-117) before the second loop (task.py 118-119)
appends any of them, so a sequence with a non-`Task` element raises
`TypeError` with nothing appended; any other argument raises `TypeError`.
In-place mutation of `self.__relationships` is modelled by returning the
updated list; an error return leaves the caller's list untouched. -/
def addRelationship (rels : List Relationship) (arg : PyArg) (strict inverse : Bool) :
    Except PyError (List Relationship) :=
  match arg with
  | .task n => .ok (rels ++ [⟨.taskRef n, strict, inverse⟩])
  | .str s => .ok (rels ++ [⟨.selector s, strict, inverse⟩])
  | .seq xs =>
    if xs.all PyArg.isTask then
      .ok (rels ++ xs.filterMap (fun x =>
        match x with
        | .task n => some ⟨.taskRef n, strict, inverse⟩
        | _ => none))
    else
      .error .typeError
  | .other => .error .typeError

/-! ## Properties (kraken.core.system.property, not in this snapshot) -/

/-- Modelled from the spec: the `Property` implementation lives in the
`kraken.core.system.property` module, which is missing from this snapshot
(`property.py` only re-exports it).  Per spec §3 a property has a
`value_source`: an explicit value, a bound supplier, or unset. -/
inductive ValueSource where
  | unset
  | explicitValue
  | boundSupplier
  deriving DecidableEq

/-- Modelled from the spec (§3): the state of a `Property` — its name, its
input/output kind (`is_output` in the task schema, task.py 179), its
finalized flag and its value source. -/
structure PropertyData where
  name : String
  isOutput : Bool
  finalized : Bool
  source : ValueSource
  deriving DecidableEq

/-- Modelled from the spec (§4.1): `Property.set()` after `finalize()` fails
with `FinalizedError`; otherwise it records an explicit value. -/
def propertySet (p : PropertyData) : Except PyError PropertyData :=
  if p.finalized then .error .finalizedError
  else .ok { p with source := ValueSource.explicitValue }

/-- Modelled from the spec (§3): `Property.finalize()` renders the property
immutable. -/
def propertyFinalize (p : PropertyData) : PropertyData :=
  { p with finalized := true }

/-! ## Tasks and the project member tree (task.py, project.py) -/

/-- The task state this development uses (task.py 56-124): name, `default`
flag, property schema, manually added relationships; and for `GroupTask`
(task.py 192-228) the group marker, the mutable `description` and the group
member list (`GroupTask.tasks`, members identified by name inside their
project). -/
structure TaskData where
  name : String
  default : Bool
  isGroup : Bool
  description : Option String
  props : List PropertyData
  rels : List Relationship
  groupMembers : List String
  deriving DecidableEq

/-- `Task.__init__` for a plain task (task.py 73-78); the class attribute
`default: bool = True` (task.py 69). -/
def taskInit (name : String) : TaskData :=
  { name := name, default := true, isGroup := false, description := none,
    props := [], rels := [], groupMembers := [] }

/-- `GroupTask.__init__` (task.py 199-202): `tasks = []` and `default = False`. -/
def groupTaskInit (name : String) : TaskData :=
  { taskInit name with isGroup := true, default := false }

mutual
/-- A value of a project's `_members` map: a task or a sub-project
(project.py 46). -/
inductive Member where
  | task (t : TaskData) : Member
  | proj (p : Proj) : Member

/-- A project's `_members` map in insertion order (Python dicts preserve it). -/
inductive MemberList where
  | nil : MemberList
  | cons (name : String) (m : Member) (rest : MemberList) : MemberList

/-- A `Project` (project.py 28-46): name and member map.  `directory`,
`context` and the parent pointer are represented by the position of the
project in the tree. -/
inductive Proj where
  | mk (name : String) (members : MemberList) : Proj
end

/-- The keys of the member map, in insertion order. -/
def MemberList.names : MemberList → List String
  | .nil => []
  | .cons n _ rest => n :: rest.names

/-- Python dict assignment with a fresh key appends at the end. -/
def MemberList.append1 (ms : MemberList) (name : String) (m : Member) : MemberList :=
  match ms with
  | .nil => .cons name m .nil
  | .cons n x rest => .cons n x (rest.append1 name m)

/-- Python `del` on the member map. -/
def MemberList.eraseName : MemberList → String → MemberList
  | .nil, _ => .nil
  | .cons n m rest, k => if n = k then rest else .cons n m (rest.eraseName k)

/-- `Project.tasks()` (project.py 103-104): the members that are tasks, in
insertion order. -/
def MemberList.tasks : MemberList → List TaskData
  | .nil => []
  | .cons _ (.task t) rest => t :: rest.tasks
  | .cons _ (.proj _) rest => rest.tasks

/-- `self.tasks().get(name)`: the task stored under `name`, if any. -/
def MemberList.taskGet : MemberList → String → Option TaskData
  | .nil, _ => none
  | .cons n (.task t) rest, k => if n = k then some t else rest.taskGet k
  | .cons _ (.proj _) rest, k => rest.taskGet k

/-- `self._members.get(name)`. -/
def MemberList.lookup : MemberList → String → Option Member
  | .nil, _ => none
  | .cons n m rest, k => if n = k then some m else rest.lookup k

/-- In-place mutation of the task object stored under `name`, rendered as a
map update (Python mutates the stored object through the shared reference). -/
def MemberList.updateTask : MemberList → String → (TaskData → TaskData) → MemberList
  | .nil, _, _ => .nil
  | .cons n (.task t) rest, k, f =>
    if n = k then .cons n (.task (f t)) rest else .cons n (.task t) (rest.updateTask k f)
  | .cons n (.proj q) rest, k, f => .cons n (.proj q) (rest.updateTask k f)

/-- The project's name (project.py 31). -/
def Proj.projectName : Proj → String
  | .mk n _ => n

/-- The project's member map (project.py 46). -/
def Proj.members : Proj → MemberList
  | .mk _ ms => ms

/-- Member-map keys of a project. -/
def Proj.membersNames (p : Proj) : List String :=
  p.members.names

/-- `self.tasks().get(name)` on a project. -/
def Proj.taskGet (p : Proj) (k : String) : Option TaskData :=
  p.members.taskGet k

/-- Mutation of a stored task, as a map update on the project. -/
def Proj.updateStoredTask (p : Proj) (k : String) (f : TaskData → TaskData) : Proj :=
  Proj.mk p.projectName (p.members.updateTask k f)

/-- `Project.add_task` (project.py 171-182): a `ValueError` if the name is
already bound to any member, then a `ValueError` if the task's back-pointer
is not this project (the comparison `task.project is not self` is passed in
as `projectMatches`); otherwise the task is stored under its name. -/
def addTask (p : Proj) (t : TaskData) (projectMatches : Bool) : Except PyError Proj :=
  if t.name ∈ p.membersNames then .error .valueError
  else if projectMatches then .ok (Proj.mk p.projectName (p.members.append1 t.name (.task t)))
  else .error .valueError

/-- `Project.add_child` (project.py 184-195): a `ValueError` if the name is
already bound to any member, then a `ValueError` if the child's parent
pointer is not this project (passed in as `parentMatches`); otherwise the
child is stored under its name. -/
def addChild (p : Proj) (c : Proj) (parentMatches : Bool) : Except PyError Proj :=
  if c.projectName ∈ p.membersNames then .error .valueError
  else if parentMatches then
    .ok (Proj.mk p.projectName (p.members.append1 c.projectName (.proj c)))
  else .error .valueError

/-- `Project.remove_child` (project.py 197-201): `del self._members[project.name]`
(the asserts of `remove_child` hold on every call path used here). -/
def removeChild (p : Proj) (childName : String) : Proj :=
  Proj.mk p.projectName (p.members.eraseName childName)

/-- `GroupTask.add` for a `Task` argument (task.py 215-224): append the task
to the group's `tasks` list unless already present. -/
def groupAdd (g : TaskData) (taskName : String) : TaskData :=
  if taskName ∈ g.groupMembers then g
  else { g with groupMembers := g.groupMembers ++ [taskName] }

/-- The `default` and `description` overrides applied by `Project.do` to the
freshly constructed task (project.py 228-231), in source order. -/
def doOverrides (default : Option Bool) (description : Option String)
    (t0 : TaskData) : TaskData :=
  let t1 := match default with
    | some b => { t0 with default := b }
    | none => t0
  match description with
  | some d => { t1 with description := some d }
  | none => t1

/-- The registration core of `Project.do` (project.py 203-240): the member
name check, the task construction `task_type(name, self)`, the `default` and
`description` overrides, and `add_task`.  The `group` handling of `do` is
layered on top in `projectDo`; `Project.group` itself always calls `do`
without a group.  Property assignments (`**kwargs`; unknown keys only warn)
and `builddsl` closures are outside the claims' scope. -/
def projectDoCore (p : Proj) (name : String) (taskType : String → TaskData)
    (default : Option Bool) (description : Option String) :
    Except PyError (Proj × TaskData) := do
  if name ∈ p.membersNames then throw PyError.valueError
  let t2 := doOverrides default description (taskType name)
  let p1 ← addTask p t2 true
  pure (p1, t2)

/-- The `description`/`default` overrides of `Project.group`
(project.py 255-258), in source order. -/
def groupOverrides (description : Option String) (default : Option Bool)
    (t : TaskData) : TaskData :=
  let t1 := match description with
    | some d => { t with description := some d }
    | none => t
  match default with
  | some b => { t1 with default := b }
  | none => t1

/-- `Project.group` (project.py 242-260): get or create the `GroupTask` of
the given name; an existing member of another task type is a `RuntimeError`;
the `description`/`default` overrides mutate the stored task. -/
def projectGroup (p : Proj) (name : String) (description : Option String)
    (default : Option Bool) : Except PyError (Proj × TaskData) := do
  match p.taskGet name with
  | none =>
    let r ← projectDoCore p name groupTaskInit none none
    let t2 := groupOverrides description default r.2
    pure (r.1.updateStoredTask name (fun _ => t2), t2)
  | some t =>
    if t.isGroup then
      let t2 := groupOverrides description default t
      pure (p.updateStoredTask name (fun _ => t2), t2)
    else throw PyError.runtimeError

/-- `Project.do` (project.py 203-240) including the optional group: after the
registration core, a group given by name is looked up or created through
`Project.group` and the new task is added to it (`group.add(task)`). -/
def projectDo (p : Proj) (name : String) (taskType : String → TaskData)
    (default : Option Bool) (group : Option String) (description : Option String) :
    Except PyError (Proj × TaskData) := do
  let r ← projectDoCore p name taskType default description
  match group with
  | none => pure r
  | some g =>
    let rg ← projectGroup r.1 g none none
    pure (rg.1.updateStoredTask g (fun gt => groupAdd gt name), r.2)

/-- `Task.add_relationship` called on a task stored in a project's member map
(the way `Project.__init__` links the seeded groups); the mutation of the
stored object is a map update. -/
def storedAddRelationship (p : Proj) (taskName : String) (arg : PyArg)
    (strict inverse : Bool) : Except PyError Proj := do
  match p.taskGet taskName with
  | some t => do
    let rels ← addRelationship t.rels arg strict inverse
    pure (p.updateStoredTask taskName (fun u => { u with rels := rels }))
  | none => throw PyError.valueError

/-- `Project.__init__` (project.py 37-72): starting from an empty member map,
seed the canonical chain of group tasks; the relationships between the
seeded groups pass the already-created group objects (task references). -/
def projInit (name : String) : Except PyError Proj := do
  let p0 := Proj.mk name MemberList.nil
  let r1 ← projectGroup p0 "apply"
    (some "Tasks that perform automatic updates to the project consistency.") none
  let r2 ← projectGroup r1.1 "fmt"
    (some "Tasks that that perform code formatting operations.") none
  let p3 ← storedAddRelationship r2.1 "fmt" (PyArg.task "apply") true false
  let r4 ← projectGroup p3 "check"
    (some "Tasks that perform project consistency checks.") (some true)
  let r5 ← projectGroup r4.1 "lint"
    (some "Tasks that perform code linting.") (some true)
  let p6 ← storedAddRelationship r5.1 "lint" (PyArg.task "check") true false
  let r7 ← projectGroup p6 "build"
    (some "Tasks that produce build artefacts.") none
  let p8 ← storedAddRelationship r7.1 "build" (PyArg.task "lint") false false
  let r9 ← projectGroup p8 "test"
    (some "Tasks that perform unit tests.") (some true)
  let p10 ← storedAddRelationship r9.1 "test" (PyArg.task "build") false false
  let r11 ← projectGroup p10 "integrationTest"
    (some "Tasks that perform integration tests.") none
  let p12 ← storedAddRelationship r11.1 "integrationTest" (PyArg.task "test") false false
  let r13 ← projectGroup p12 "publish"
    (some "Tasks that publish build artefacts.") none
  let p14 ← storedAddRelationship r13.1 "publish" (PyArg.task "integrationTest") false false
  let r15 ← projectGroup p14 "deploy"
    (some "Tasks that deploy applications.") none
  storedAddRelationship r15.1 "deploy" (PyArg.task "publish") false false

/-- The shape shared by the nine groups `Project.__init__` seeds: a
`GroupTask` with a description and an explicit relationship list. -/
def seededGroup (name : String) (default : Bool) (description : String)
    (rels : List Relationship) : TaskData :=
  { name := name, default := default, isGroup := true, description := some description,
    props := [], rels := rels, groupMembers := [] }

/-- The member map produced by the seeding sequence of `Project.__init__`
(project.py 48-72). -/
def seededMembers : MemberList :=
  .cons "apply" (.task (seededGroup "apply" false
    "Tasks that perform automatic updates to the project consistency." []))
  (.cons "fmt" (.task (seededGroup "fmt" false
    "Tasks that that perform code formatting operations."
    [⟨.taskRef "apply", true, false⟩]))
  (.cons "check" (.task (seededGroup "check" true
    "Tasks that perform project consistency checks." []))
  (.cons "lint" (.task (seededGroup "lint" true
    "Tasks that perform code linting."
    [⟨.taskRef "check", true, false⟩]))
  (.cons "build" (.task (seededGroup "build" false
    "Tasks that produce build artefacts."
    [⟨.taskRef "lint", false, false⟩]))
  (.cons "test" (.task (seededGroup "test" true
    "Tasks that perform unit tests."
    [⟨.taskRef "build", false, false⟩]))
  (.cons "integrationTest" (.task (seededGroup "integrationTest" false
    "Tasks that perform integration tests."
    [⟨.taskRef "test", false, false⟩]))
  (.cons "publish" (.task (seededGroup "publish" false
    "Tasks that publish build artefacts."
    [⟨.taskRef "integrationTest", false, false⟩]))
  (.cons "deploy" (.task (seededGroup "deploy" false
    "Tasks that deploy applications."
    [⟨.taskRef "publish", false, false⟩]))
  .nil))))))))

set_option maxHeartbeats 1000000 in
/-- `Project.__init__` succeeds and produces exactly the seeded member map,
for every project name. -/
theorem projInit_eq (nm : String) : projInit nm = Except.ok (Proj.mk nm seededMembers) := by
  simp [projInit, projectGroup, projectDoCore, doOverrides, groupOverrides, addTask,
    storedAddRelationship, addRelationship, groupTaskInit, taskInit, seededMembers, seededGroup,
    Proj.projectName, Proj.members, Proj.membersNames, Proj.taskGet, Proj.updateStoredTask,
    MemberList.names, MemberList.append1, MemberList.taskGet, MemberList.updateTask, bind,
    Except.bind, pure, Except.pure]

/-- C5: every newly constructed project contains exactly the group tasks
`apply`, `fmt`, `check`, `lint`, `build`, `test`, `integrationTest`,
`publish`, `deploy`; `fmt` has a strict relationship on `apply`, `lint` a
strict relationship on `check`, `build` a non-strict relationship on `lint`,
`test` a non-strict relationship on `build`, `integrationTest` a non-strict
relationship on `test`, `publish` a non-strict relationship on
`integrationTest`, `deploy` a non-strict relationship on `publish`; `check`,
`lint` and `test` are default and the other six groups are not. -/
theorem c5_project_init_seeds_canonical_groups (nm : String) :
    projInit nm = Except.ok (Proj.mk nm seededMembers)
    ∧ (Proj.mk nm seededMembers).membersNames
        = ["apply", "fmt", "check", "lint", "build", "test", "integrationTest", "publish",
          "deploy"]
    ∧ ((Proj.mk nm seededMembers).taskGet "apply").map (fun t => (t.isGroup, t.default, t.rels))
        = some (true, false, [])
    ∧ ((Proj.mk nm seededMembers).taskGet "fmt").map (fun t => (t.isGroup, t.default, t.rels))
        = some (true, false, [⟨.taskRef "apply", true, false⟩])
    ∧ ((Proj.mk nm seededMembers).taskGet "check").map (fun t => (t.isGroup, t.default, t.rels))
        = some (true, true, [])
    ∧ ((Proj.mk nm seededMembers).taskGet "lint").map (fun t => (t.isGroup, t.default, t.rels))
        = some (true, true, [⟨.taskRef "check", true, false⟩])
    ∧ ((Proj.mk nm seededMembers).taskGet "build").map (fun t => (t.isGroup, t.default, t.rels))
        = some (true, false, [⟨.taskRef "lint", false, false⟩])
    ∧ ((Proj.mk nm seededMembers).taskGet "test").map (fun t => (t.isGroup, t.default, t.rels))
        = some (true, true, [⟨.taskRef "build", false, false⟩])
    ∧ ((Proj.mk nm seededMembers).taskGet "integrationTest").map
          (fun t => (t.isGroup, t.default, t.rels))
        = some (true, false, [⟨.taskRef "test", false, false⟩])
    ∧ ((Proj.mk nm seededMembers).taskGet "publish").map (fun t => (t.isGroup, t.default, t.rels))
        = some (true, false, [⟨.taskRef "integrationTest", false, false⟩])
    ∧ ((Proj.mk nm seededMembers).taskGet "deploy").map (fun t => (t.isGroup, t.default, t.rels))
        = some (true, false, [⟨.taskRef "publish", false, false⟩]) :=
  ⟨projInit_eq nm, rfl, rfl, rfl, rfl, rfl, rfl, rfl, rfl, rfl, rfl⟩

/-! ## Theorems: event bus and add_relationship -/

theorem listenAll_go (log : List (ContextEventType × Nat)) (init : Listeners)
    (t : ContextEventType) :
    (log.foldl (fun ls e => listen ls e.1 e.2) init) t
      = init t ++ (log.filter (fun e => decide (e.1 = t))).map Prod.snd := by
  induction log generalizing init with
  | nil => simp
  | cons hd tl ih =>
    rw [List.foldl_cons, ih]
    by_cases h : hd.1 = t
    · simp [listen, h, List.filter_cons]
    · simp [listen, h, List.filter_cons, Ne.symm h]

theorem listenAll_eq (log : List (ContextEventType × Nat)) (t : ContextEventType) :
    listenAll log t = (log.filter (fun e => decide (e.1 = t))).map Prod.snd := by
  simpa using listenAll_go log (fun _ => []) t

theorem runListeners_all_ok {ε : Type} (behavior : Nat → Option ε) (l : List Nat)
    (h : ∀ x ∈ l, behavior x = none) :
    runListeners behavior l = (l, none) := by
  induction l with
  | nil => rfl
  | cons hd tl ih =>
    have hhd := h hd (by simp)
    have htl := ih (fun x hx => h x (by simp [hx]))
    simp [runListeners, hhd, htl]

theorem runListeners_first_raise {ε : Type} (behavior : Nat → Option ε)
    (pre : List Nat) (l : Nat) (post : List Nat) (e : ε)
    (hpre : ∀ x ∈ pre, behavior x = none) (hl : behavior l = some e) :
    runListeners behavior (pre ++ l :: post) = (pre ++ [l], some e) := by
  induction pre with
  | nil => simp [runListeners, hl]
  | cons hd tl ih =>
    have hhd := hpre hd (by simp)
    have htl := ih (fun x hx => hpre x (by simp [hx]))
    simp [runListeners, hhd, htl]

/-- C6: for every event type other than the wildcard `any`, `Context.trigger`
invokes first the listeners registered for `any`, in registration order, then
the listeners registered for the triggered type, in registration order; and
an exception raised by a listener stops the dispatch loop there and
propagates to the caller of `trigger`. -/
theorem c6_trigger_dispatch_order_and_propagation {ε : Type}
    (behavior : Nat → Option ε) (log : List (ContextEventType × Nat))
    (t : ContextEventType) (ht : t ≠ ContextEventType.any) :
    ((∀ x ∈ (log.filter (fun e => decide (e.1 = ContextEventType.any))).map Prod.snd
          ++ (log.filter (fun e => decide (e.1 = t))).map Prod.snd, behavior x = none) →
      trigger behavior (listenAll log) t
        = ((log.filter (fun e => decide (e.1 = ContextEventType.any))).map Prod.snd
            ++ (log.filter (fun e => decide (e.1 = t))).map Prod.snd, none))
    ∧ (∀ (pre : List Nat) (l : Nat) (post : List Nat) (e : ε),
        (log.filter (fun e => decide (e.1 = ContextEventType.any))).map Prod.snd
            ++ (log.filter (fun e => decide (e.1 = t))).map Prod.snd
          = pre ++ l :: post →
        (∀ x ∈ pre, behavior x = none) → behavior l = some e →
        trigger behavior (listenAll log) t = (pre ++ [l], some e)) := by
  constructor
  · intro h
    unfold trigger
    rw [listenAll_eq, listenAll_eq]
    exact runListeners_all_ok behavior _ h
  · intro pre l post e hsplit hpre hl
    unfold trigger
    rw [listenAll_eq, listenAll_eq, hsplit]
    exact runListeners_first_raise behavior pre l post e hpre hl

/-- Witness for C6 at a concrete registration log: listeners 0 and 2 are
registered for `any`, listener 1 for `on_project_init`; with no listener
raising, triggering `on_project_init` invokes 0, 2, 1 in that order, and with
listener 2 raising, the dispatch stops at 2 and the exception propagates. -/
theorem c6_trigger_dispatch_order_and_propagation_witness :
    trigger (fun _ => (none : Option Unit))
        (listenAll [(ContextEventType.any, 0), (ContextEventType.onProjectInit, 1),
          (ContextEventType.any, 2)])
        ContextEventType.onProjectInit
      = ([0, 2, 1], none)
    ∧ trigger (fun l => if l = 2 then some () else none)
        (listenAll [(ContextEventType.any, 0), (ContextEventType.onProjectInit, 1),
          (ContextEventType.any, 2)])
        ContextEventType.onProjectInit
      = ([0, 2], some ()) := by
  constructor
  · exact (c6_trigger_dispatch_order_and_propagation (fun _ => (none : Option Unit))
      [(ContextEventType.any, 0), (ContextEventType.onProjectInit, 1),
        (ContextEventType.any, 2)]
      ContextEventType.onProjectInit (by decide)).1 (by decide)
  · exact (c6_trigger_dispatch_order_and_propagation (fun l => if l = 2 then some () else none)
      [(ContextEventType.any, 0), (ContextEventType.onProjectInit, 1),
        (ContextEventType.any, 2)]
      ContextEventType.onProjectInit (by decide)).2 [0] 2 [1] ()
      (by decide) (by decide) (by decide)

/-- C10: when `Task.add_relationship` receives a sequence containing an
element that is not a `Task`, the call raises `TypeError`; because the first
loop checks every element before the second loop stores any, the task's
relationship list is left completely unchanged (the operation produces no
updated list). -/
theorem c10_add_relationship_sequence_type_checked_before_stored
    (rels : List Relationship) (xs : List PyArg) (strict inverse : Bool)
    (h : ∃ x ∈ xs, x.isTask = false) :
    addRelationship rels (.seq xs) strict inverse = .error .typeError := by
  obtain ⟨x, hx, hfalse⟩ := h
  have hall : xs.all PyArg.isTask = false := by
    cases hAll : xs.all PyArg.isTask with
    | false => rfl
    | true => exact absurd (List.all_eq_true.mp hAll x hx) (by simp [hfalse])
  simp [addRelationship, hall]

/-- Witness for C10: a two-element sequence whose second element is a selector
string (not a `Task`) raises `TypeError` even though its first element is a
task. -/
theorem c10_add_relationship_sequence_type_checked_before_stored_witness :
    (∃ x ∈ [PyArg.task "a", PyArg.str "b"], x.isTask = false)
    ∧ addRelationship [] (.seq [PyArg.task "a", PyArg.str "b"]) true false
        = .error .typeError :=
  ⟨by decide,
    c10_add_relationship_sequence_type_checked_before_stored [] [PyArg.task "a", PyArg.str "b"]
      true false (by decide)⟩

/-! ## Theorems: member-name uniqueness (C9) -/

theorem names_append1 : ∀ (ms : MemberList) (n : String) (m : Member),
    (ms.append1 n m).names = ms.names ++ [n]
  | .nil, _, _ => rfl
  | .cons a b rest, n, m => by
    simp [MemberList.append1, MemberList.names, names_append1 rest n m]

theorem names_updateTask : ∀ (ms : MemberList) (k : String) (f : TaskData → TaskData),
    (ms.updateTask k f).names = ms.names
  | .nil, _, _ => rfl
  | .cons n (.task t) rest, k, f => by
    by_cases h : n = k <;>
      simp [MemberList.updateTask, MemberList.names, h, names_updateTask rest k f]
  | .cons n (.proj q) rest, k, f => by
    simp [MemberList.updateTask, MemberList.names, names_updateTask rest k f]

theorem membersNames_mk (n : String) (ms : MemberList) :
    (Proj.mk n ms).membersNames = ms.names := rfl

theorem membersNames_updateStoredTask (p : Proj) (k : String) (f : TaskData → TaskData) :
    (p.updateStoredTask k f).membersNames = p.membersNames := by
  cases p with
  | mk n ms => simpa [Proj.updateStoredTask, Proj.members, membersNames_mk] using
      names_updateTask ms k f

theorem nodup_append_one {xs : List String} {x : String} (h : xs.Nodup) (hx : x ∉ xs) :
    (xs ++ [x]).Nodup := by
  simp [List.nodup_append, h, hx]

theorem addTask_ok_names {p : Proj} {t : TaskData} {b : Bool} {q : Proj}
    (h : addTask p t b = .ok q) :
    t.name ∉ p.membersNames ∧ q.membersNames = p.membersNames ++ [t.name] := by
  by_cases hmem : t.name ∈ p.membersNames
  · simp [addTask, hmem] at h
  · cases b with
    | false => simp [addTask, hmem] at h
    | true =>
      simp [addTask, hmem] at h
      refine ⟨hmem, ?_⟩
      rw [← h]
      cases p with
      | mk n ms => simpa [Proj.members, membersNames_mk] using names_append1 ms t.name (.task t)

theorem addChild_ok_names {p : Proj} {c : Proj} {b : Bool} {q : Proj}
    (h : addChild p c b = .ok q) :
    c.projectName ∉ p.membersNames ∧ q.membersNames = p.membersNames ++ [c.projectName] := by
  by_cases hmem : c.projectName ∈ p.membersNames
  · simp [addChild, hmem] at h
  · cases b with
    | false => simp [addChild, hmem] at h
    | true =>
      simp [addChild, hmem] at h
      refine ⟨hmem, ?_⟩
      rw [← h]
      cases p with
      | mk n ms =>
        simpa [Proj.members, membersNames_mk] using names_append1 ms c.projectName (.proj c)

theorem projectDoCore_ok_names {p : Proj} {nm : String} {taskType : String → TaskData}
    {default : Option Bool} {description : Option String} {q : Proj} {t : TaskData}
    (h : projectDoCore p nm taskType default description = .ok (q, t)) :
    t.name ∉ p.membersNames ∧ q.membersNames = p.membersNames ++ [t.name] := by
  by_cases hmem : nm ∈ p.membersNames
  · simp [projectDoCore, hmem, bind, Except.bind, pure, Except.pure, throw, throwThe,
      MonadExceptOf.throw] at h
  · simp only [projectDoCore, hmem, if_false, bind, Except.bind, pure, Except.pure] at h
    cases hadd : addTask p (doOverrides default description (taskType nm)) true with
    | error e => rw [hadd] at h; cases h
    | ok q1 =>
      rw [hadd] at h
      simp only [Except.ok.injEq, Prod.mk.injEq] at h
      obtain ⟨hq, ht⟩ := h
      obtain ⟨hnotmem, hnames⟩ := addTask_ok_names hadd
      subst hq
      subst ht
      exact ⟨hnotmem, hnames⟩

theorem projectGroup_ok_nodup {p : Proj} {g : String} {dsc : Option String} {dft : Option Bool}
    {q : Proj} {gt : TaskData}
    (h : projectGroup p g dsc dft = .ok (q, gt)) (hnd : p.membersNames.Nodup) :
    q.membersNames.Nodup := by
  simp only [projectGroup, bind, Except.bind, pure, Except.pure] at h
  cases hg : p.taskGet g with
  | some t =>
    rw [hg] at h
    dsimp only at h
    cases htg : t.isGroup with
    | false =>
      simp [htg, throw, throwThe, MonadExceptOf.throw] at h
    | true =>
      simp only [htg, if_true] at h
      simp only [Except.ok.injEq, Prod.mk.injEq] at h
      obtain ⟨hq, _⟩ := h
      rw [← hq, membersNames_updateStoredTask]
      exact hnd
  | none =>
    rw [hg] at h
    dsimp only at h
    cases hdc : projectDoCore p g groupTaskInit none none with
    | error e => rw [hdc] at h; cases h
    | ok r =>
      obtain ⟨q1, t1⟩ := r
      rw [hdc] at h
      dsimp only at h
      simp only [Except.ok.injEq, Prod.mk.injEq] at h
      obtain ⟨hq, _⟩ := h
      obtain ⟨hmem1, hnames1⟩ := projectDoCore_ok_names hdc
      rw [← hq, membersNames_updateStoredTask, hnames1]
      exact nodup_append_one hnd hmem1

theorem projectDo_ok_nodup {p : Proj} {nm : String} {taskType : String → TaskData}
    {dft : Option Bool} {grp : Option String} {dsc : Option String} {q : Proj} {t : TaskData}
    (h : projectDo p nm taskType dft grp dsc = .ok (q, t)) (hnd : p.membersNames.Nodup) :
    q.membersNames.Nodup := by
  simp only [projectDo, bind, Except.bind, pure, Except.pure] at h
  cases hdc : projectDoCore p nm taskType dft dsc with
  | error e => rw [hdc] at h; cases h
  | ok r =>
    obtain ⟨q1, t1⟩ := r
    rw [hdc] at h
    dsimp only at h
    obtain ⟨hmem1, hnames1⟩ := projectDoCore_ok_names hdc
    have hnd1 : q1.membersNames.Nodup := by
      rw [hnames1]; exact nodup_append_one hnd hmem1
    cases grp with
    | none =>
      dsimp only at h
      simp only [Except.ok.injEq, Prod.mk.injEq] at h
      rw [← h.1]
      exact hnd1
    | some g =>
      dsimp only at h
      cases hpg : projectGroup q1 g none none with
      | error e => rw [hpg] at h; cases h
      | ok rg =>
        obtain ⟨q2, gt2⟩ := rg
        rw [hpg] at h
        dsimp only at h
        simp only [Except.ok.injEq, Prod.mk.injEq] at h
        obtain ⟨hq, _⟩ := h
        have hnd2 := projectGroup_ok_nodup hpg hnd1
        rw [← hq, membersNames_updateStoredTask]
        exact hnd2

/-- C9: tasks and sub-projects share the single `_members` namespace: each of
`Project.add_task`, `Project.add_child` and `Project.do` raises `ValueError`
when the name to register is already bound to any member (leaving the member
map unchanged — the operation produces no updated project), and each
preserves the uniqueness of member names whenever it succeeds. -/
theorem c9_member_namespace_unique (p : Proj) (t : TaskData) (c : Proj) (nm : String)
    (taskType : String → TaskData) (dft : Option Bool) (grp : Option String)
    (dsc : Option String) (b1 b2 : Bool) :
    (t.name ∈ p.membersNames → addTask p t b1 = .error .valueError)
    ∧ (c.projectName ∈ p.membersNames → addChild p c b2 = .error .valueError)
    ∧ (nm ∈ p.membersNames → projectDo p nm taskType dft grp dsc = .error .valueError)
    ∧ (p.membersNames.Nodup → ∀ q, addTask p t b1 = .ok q → q.membersNames.Nodup)
    ∧ (p.membersNames.Nodup → ∀ q, addChild p c b2 = .ok q → q.membersNames.Nodup)
    ∧ (p.membersNames.Nodup → ∀ q t2, projectDo p nm taskType dft grp dsc = .ok (q, t2) →
        q.membersNames.Nodup) := by
  refine ⟨fun hmem => by simp [addTask, hmem],
    fun hmem => by simp [addChild, hmem],
    fun hmem => by
      simp [projectDo, projectDoCore, hmem, bind, Except.bind, throw, throwThe,
        MonadExceptOf.throw],
    fun hnd q hq => ?_, fun hnd q hq => ?_,
    fun hnd q t2 hq => projectDo_ok_nodup hq hnd⟩
  · obtain ⟨hmem, hnames⟩ := addTask_ok_names hq
    rw [hnames]
    exact nodup_append_one hnd hmem
  · obtain ⟨hmem, hnames⟩ := addChild_ok_names hq
    rw [hnames]
    exact nodup_append_one hnd hmem

/-- Witness for C9 on a project holding one member `x`: registering a task,
a child project or a `do`-task under the bound name `x` raises `ValueError`,
and a successful registration under the fresh name `y` keeps the member
names unique. -/
theorem c9_member_namespace_unique_witness :
    addTask (Proj.mk "r" (.cons "x" (.task (taskInit "x")) .nil)) (taskInit "x") true
        = .error .valueError
    ∧ addChild (Proj.mk "r" (.cons "x" (.task (taskInit "x")) .nil)) (Proj.mk "x" .nil) true
        = .error .valueError
    ∧ projectDo (Proj.mk "r" (.cons "x" (.task (taskInit "x")) .nil)) "x" taskInit none none none
        = .error .valueError
    ∧ (Proj.mk "r" (.cons "x" (.task (taskInit "x"))
        (.cons "y" (.task (taskInit "y")) .nil))).membersNames.Nodup := by
  have base := c9_member_namespace_unique
    (Proj.mk "r" (.cons "x" (.task (taskInit "x")) .nil)) (taskInit "x") (Proj.mk "x" .nil)
    "x" taskInit none none none true true
  refine ⟨base.1 (by decide), base.2.1 (by decide), base.2.2.1 (by decide), ?_⟩
  exact (c9_member_namespace_unique
      (Proj.mk "r" (.cons "x" (.task (taskInit "x")) .nil)) (taskInit "y") (Proj.mk "x" .nil)
      "y" taskInit none none none true true).2.2.2.1 (by decide)
    (Proj.mk "r" (.cons "x" (.task (taskInit "x")) (.cons "y" (.task (taskInit "y")) .nil)))
    rfl

/-! ## Project paths and task resolution (context.py 169-246) -/

/-- The path of a member (task or sub-project) of a project whose own path is
`projPath` (`Project.path`, project.py 77-86; `Task.path`, task.py 83-90):
the root project's path is `:` and its members get `:name`; deeper members
extend the parent's path with `:name`. -/
def memberPath (projPath : String) (name : String) : String :=
  if projPath = ":" then ":" ++ name else projPath ++ ":" ++ name

mutual
/-- `Context.iter_projects(relative_to)` (context.py 169-177): pre-order
traversal of a located project subtree; `subprojects()` yields the project
members in insertion order.  Each project is paired with its path. -/
def iterProjectsFrom : Proj → String → List (Proj × String)
  | .mk n ms, path => (Proj.mk n ms, path) :: iterProjectsMembers ms path

/-- The traversal of the sub-projects among a member list. -/
def iterProjectsMembers : MemberList → String → List (Proj × String)
  | .nil, _ => []
  | .cons _ (.task _) rest, path => iterProjectsMembers rest path
  | .cons nm (.proj q) rest, path =>
    iterProjectsFrom q (memberPath path nm) ++ iterProjectsMembers rest path
end

/-- The tasks of a project, in member order (`Project.tasks().values()`). -/
def Proj.tasksList : Proj → List TaskData
  | .mk _ ms => ms.tasks

/-- `Project.subproject(name, load=False)` (project.py 121-135): a member of
another type raises `ValueError`; an absent member yields `none` (nothing is
loaded when `load=False`). -/
def subprojectNoLoad (p : Proj) (name : String) : Except PyError (Option Proj) :=
  match p.members.lookup name with
  | some (.task _) => .error .valueError
  | some (.proj q) => .ok (some q)
  | none => .ok none

/-- The loop of `Context.get_project` (context.py 191-197) over the non-empty
path parts: each part must name an existing sub-project. -/
def getProjectGo : Proj × String → List String → Except PyError (Proj × String)
  | relTo, [] => .ok relTo
  | relTo, part :: rest => do
    match ← subprojectNoLoad relTo.1 part with
    | none => throw PyError.valueError
    | some q => getProjectGo (q, memberPath relTo.2 part) rest

/-- The loop behind Python `s.split(":")`. -/
def splitColonGo : List Char → List Char → List String
  | [], acc => [String.mk acc.reverse]
  | c :: rest, acc =>
    if c = ':' then String.mk acc.reverse :: splitColonGo rest []
    else splitColonGo rest (c :: acc)

/-- Python `s.split(":")`: the (possibly empty) pieces between colons. -/
def pySplitColon (s : String) : List String :=
  splitColonGo s.toList []

/-- Python `s.startswith(":")`. -/
def startsWithColon (s : String) : Bool :=
  match s.toList with
  | [] => false
  | c :: _ => c == ':'

/-- Python `s[1:]`. -/
def dropFirstChar (s : String) : String :=
  String.mk (s.toList.drop 1)

/-- Python `s[:-1]`. -/
def dropLastChar (s : String) : String :=
  String.mk s.toList.dropLast

/-- Python `s.endswith("?")`. -/
def endsWithQuestion (s : String) : Bool :=
  match s.toList.getLast? with
  | some c => c == '?'
  | none => false

/-- `Context.get_project` (context.py 179-199): a path starting with `:` is
resolved from the root project, any other from `relative_to`; the path is
split on `:` and empty parts are dropped (`filter(None, path.split(":"))`). -/
def getProject (root : Proj) (path : String) (relativeTo : Proj × String) :
    Except PyError (Proj × String) :=
  if startsWithColon path then
    getProjectGo (root, ":") ((pySplitColon (dropFirstChar path)).filter (fun s => decide (s ≠ "")))
  else
    getProjectGo relativeTo ((pySplitColon path).filter (fun s => decide (s ≠ "")))

/-- Python `target.rpartition(":")[::2]` (context.py 228): the text before
and the text after the last colon; with no colon the head is empty and the
tail is the whole string.  A leading colon of a selector such as `:task` is
consumed as the separator, leaving an empty head. -/
def rpartitionColon (s : String) : String × String :=
  match s.toList.reverse.span (fun c => decide (c ≠ ':')) with
  | (_, []) => ("", s)
  | (tailRev, _ :: headRev) => (String.mk headRev.reverse, String.mk tailRev.reverse)

/-- The matching-task comprehension of `Context.resolve_tasks`
(context.py 231-237): every task of the given name in the subtree of the
located project, in traversal order, paired with its `Task.path`. -/
def matchedTasks (start : Proj × String) (name : String) : List (TaskData × String) :=
  (iterProjectsFrom start.1 start.2).flatMap fun pq =>
    (pq.1.tasksList.filter (fun t => decide (t.name = name))).map fun t =>
      (t, memberPath pq.2 t.name)

/-- The target loop of `Context.resolve_tasks` (context.py 220-246): a
trailing `?` makes a target optional; the target is split by `rpartition` on
the last colon into a project reference and a task name; the project
reference is resolved by `get_project` and the name matched in its whole
subtree; a non-optional target with no match raises `ValueError`. -/
def resolveTasksGo (root : Proj) (relativeTo : Proj × String) :
    List String → Except PyError (List (TaskData × String))
  | [] => .ok []
  | target :: rest => do
    let optional := endsWithQuestion target
    let t := if optional then dropLastChar target else target
    let pr := rpartitionColon t
    let project ← getProject root pr.1 relativeTo
    let matched := matchedTasks project pr.2
    if matched.isEmpty then
      if optional then resolveTasksGo root relativeTo rest
      else throw PyError.valueError
    else do
      let others ← resolveTasksGo root relativeTo rest
      pure (matched ++ others)

/-- `Context.resolve_tasks(targets, relative_to)` (context.py 201-246) for an
explicit target list (`targets is None`, which selects all default tasks, is
not exercised by the claims). -/
def resolveTasks (root : Proj) (targets : List String) (relativeTo : Proj × String) :
    Except PyError (List (TaskData × String)) :=
  resolveTasksGo root relativeTo targets

/-! ## The C2 fixture -/

/-- The C2 fixture built through the embedded registration operations: a root
project with a task `task` and a sub-project `sub` holding its own `task`. -/
def c2Build : Except PyError Proj := do
  let root ← projInit "root"
  let r1 ← projectDoCore root "task" taskInit none none
  let sub0 ← projInit "sub"
  let r2 ← projectDoCore sub0 "task" taskInit none none
  addChild r1.1 r2.1 true

/-- The sub-project of the C2 fixture. -/
def c2SubVal : Proj :=
  Proj.mk "sub" (seededMembers.append1 "task" (.task (taskInit "task")))

/-- The root project of the C2 fixture. -/
def c2RootVal : Proj :=
  Proj.mk "root"
    ((seededMembers.append1 "task" (.task (taskInit "task"))).append1 "sub" (.proj c2SubVal))

set_option maxHeartbeats 1000000 in
theorem c2Build_eq : c2Build = Except.ok c2RootVal := by
  simp [c2Build, projInit_eq, projectDoCore, doOverrides, addTask, addChild, taskInit,
    c2RootVal, c2SubVal, seededMembers, seededGroup, Proj.projectName, Proj.members,
    Proj.membersNames, MemberList.names, MemberList.append1, bind, Except.bind, pure,
    Except.pure]

/-- C2: evaluation of `Context.resolve_tasks` on the fixture.  The selector
`task` from the root yields exactly the two tasks `:task` and `:sub:task`,
as the claim states; but the selector `:task` resolved relative to the
sub-project `sub` yields the one task `:sub:task` — not `:task` — because
`target.rpartition(":")` (context.py 228) consumes the leading colon as the
separator, leaving an empty project reference that `get_project` resolves
relative to `sub` instead of absolutely from the root.  The repository's own
test (tests/test_run_in_subproject.py, scenario `subproject-run-root`)
expects `:`-prefixed selectors to resolve from the root. -/
theorem c2_resolve_tasks_eval :
    c2Build = Except.ok c2RootVal
    ∧ (resolveTasks c2RootVal ["task"] (c2RootVal, ":")).map (fun l => l.map Prod.snd)
        = .ok [":task", ":sub:task"]
    ∧ (resolveTasks c2RootVal [":task"] (c2SubVal, ":sub")).map (fun l => l.map Prod.snd)
        = .ok [":sub:task"]
    ∧ (Except.ok [":sub:task"] : Except PyError (List String)) ≠ .ok [":task"] :=
  ⟨c2Build_eq, rfl, rfl, fun h => absurd (Except.ok.inj h) (by decide)⟩

/-! ## Context.finalize (context.py 248-265) -/

/-- The events a context triggers, recorded with the path of the project they
carry (an event's listeners are configuration observers; their invocation is
modelled by the event bus above). -/
inductive EventRecord where
  | onProjectInit (path : String)
  | onProjectLoaded (path : String)
  | onProjectBeginFinalize (path : String)
  | onProjectFinalized (path : String)
  | onContextBeginFinalize
  | onContextFinalized
  deriving DecidableEq

/-- The context state `Context.finalize` touches (context.py 88-89): the
`_finalized` flag and the root project tree.  `finalize` asserts the root
project is set, so it is carried directly. -/
structure Context where
  finalized : Bool
  root : Proj

/-- `Task.finalize` (task.py 172-180): finalize every property of the schema
that is not an output property. -/
def taskFinalize (t : TaskData) : TaskData :=
  { t with props := t.props.map fun p => if p.isOutput then p else propertyFinalize p }

mutual
/-- The net effect on the project tree of the per-project loop of
`Context.finalize` (context.py 259-263): every task of every project has its
`finalize()` called; the loop mutates task objects in place and never
changes the member structure, so its effect is this tree map. -/
def finalizeProj : Proj → Proj
  | .mk n ms => .mk n (finalizeMembers ms)

/-- The member-wise part of `finalizeProj`. -/
def finalizeMembers : MemberList → MemberList
  | .nil => .nil
  | .cons n (.task t) rest => .cons n (.task (taskFinalize t)) (finalizeMembers rest)
  | .cons n (.proj q) rest => .cons n (.proj (finalizeProj q)) (finalizeMembers rest)
end

/-- `Context.finalize` (context.py 248-265): when already finalized, log a
warning and return (no events, no task finalized, state unchanged);
otherwise set `_finalized`, trigger `on_context_begin_finalize`, then per
project in pre-order trigger `on_project_begin_finalize`, call `finalize()`
on each of its tasks, trigger `on_project_finalized`, and finally trigger
`on_context_finalized`.  Returns the new state, the events triggered in
order, and the paths of the tasks finalized in order. -/
def contextFinalize (c : Context) : Context × List EventRecord × List String :=
  if c.finalized then (c, [], [])
  else
    let projs := iterProjectsFrom c.root ":"
    ({ finalized := true, root := finalizeProj c.root },
      [EventRecord.onContextBeginFinalize]
        ++ projs.flatMap (fun pq =>
            [EventRecord.onProjectBeginFinalize pq.2, EventRecord.onProjectFinalized pq.2])
        ++ [EventRecord.onContextFinalized],
      projs.flatMap (fun pq => pq.1.tasksList.map (fun t => memberPath pq.2 t.name)))

mutual
/-- Every task stored anywhere in a project tree. -/
def Proj.allTasks : Proj → List TaskData
  | .mk _ ms => MemberList.allTasks ms

/-- Every task stored anywhere below a member list. -/
def MemberList.allTasks : MemberList → List TaskData
  | .nil => []
  | .cons _ (.task t) rest => t :: MemberList.allTasks rest
  | .cons _ (.proj q) rest => Proj.allTasks q ++ MemberList.allTasks rest
end

mutual
theorem allTasks_finalizeProj : ∀ (p : Proj),
    (finalizeProj p).allTasks = p.allTasks.map taskFinalize
  | .mk n ms => by
    simp [finalizeProj, Proj.allTasks, allTasks_finalizeMembers ms]

theorem allTasks_finalizeMembers : ∀ (ms : MemberList),
    (finalizeMembers ms).allTasks = ms.allTasks.map taskFinalize
  | .nil => rfl
  | .cons n (.task t) rest => by
    simp [finalizeMembers, MemberList.allTasks, allTasks_finalizeMembers rest]
  | .cons n (.proj q) rest => by
    simp [finalizeMembers, MemberList.allTasks, allTasks_finalizeProj q,
      allTasks_finalizeMembers rest]
end

/-- C7: `Context.finalize` is idempotent — after a first call has completed,
a second call triggers no events, calls `finalize()` on no task, and leaves
the context state unchanged, so two calls are observationally one. -/
theorem c7_context_finalize_idempotent (c : Context) :
    contextFinalize (contextFinalize c).1 = ((contextFinalize c).1, [], []) := by
  by_cases h : c.finalized
  · simp [contextFinalize, h]
  · simp [contextFinalize, h]

/-- C3: on a context not yet finalized, after `Context.finalize()` has
returned, every property of every task of the context that is not an output
property is finalized, so `Property.set` on it fails with `FinalizedError`. -/
theorem c3_non_output_properties_read_only_after_finalize (c : Context)
    (h : c.finalized = false) :
    ∀ t ∈ (contextFinalize c).1.root.allTasks, ∀ p ∈ t.props, p.isOutput = false →
      propertySet p = .error .finalizedError := by
  intro t ht p hp hout
  have hroot : (contextFinalize c).1.root = finalizeProj c.root := by
    simp [contextFinalize, h]
  rw [hroot, allTasks_finalizeProj] at ht
  obtain ⟨t0, _, rfl⟩ := List.mem_map.mp ht
  simp only [taskFinalize, List.mem_map] at hp
  obtain ⟨p0, _, rfl⟩ := hp
  cases ho : p0.isOutput with
  | true => simp [ho] at hout
  | false => simp [ho, propertySet, propertyFinalize]

/-- The task of the C3 witness fixture: one non-output, not yet finalized,
unset property `x`. -/
def c3FixtureTask : TaskData :=
  { taskInit "t" with props := [⟨"x", false, false, ValueSource.unset⟩] }

/-- The context of the C3 witness fixture: not finalized, one root-level
task. -/
def c3FixtureCtx : Context :=
  ⟨false, Proj.mk "r" (.cons "t" (.task c3FixtureTask) .nil)⟩

/-- Witness for C3: on the fixture context, after finalize, `set` on the
task's non-output property fails with `FinalizedError`. -/
theorem c3_non_output_properties_read_only_after_finalize_witness :
    propertySet ⟨"x", false, true, ValueSource.unset⟩ = .error .finalizedError :=
  c3_non_output_properties_read_only_after_finalize c3FixtureCtx rfl
    (taskFinalize c3FixtureTask)
    (by simp [c3FixtureCtx, c3FixtureTask, contextFinalize, finalizeProj, finalizeMembers,
      Proj.allTasks, MemberList.allTasks])
    (⟨"x", false, true, ValueSource.unset⟩ : PropertyData)
    (by simp [taskFinalize, c3FixtureTask, taskInit, propertyFinalize])
    rfl

/-! ## Context.load_project (context.py 102-167) -/

/-- The behavior of `runner.execute_script(script, ...)` for one
`load_project` call (the script runner is an external collaborator, spec
§1): it returns normally, raises a `ProjectLoaderError` whose `project` is
the project being loaded, or raises a `ProjectLoaderError` for some other
project (for example escaping from a nested load that already undid its own
registration). -/
inductive ScriptOutcome where
  | ok
  | raiseOwn
  | raiseOther
  deriving DecidableEq

/-- The errors `load_project` can propagate: the `ValueError` of `add_child`,
or a `ProjectLoaderError`, tagged by whether its `project` attribute is the
project of this call (`exc.project is project`, context.py 159). -/
inductive LoadError where
  | valueError
  | loaderErrorOwn
  | loaderErrorOther
  deriving DecidableEq

/-- The context state `load_project` mutates: the optional root project
(context.py 89) and the parent project's member map when a parent is given. -/
structure LoadState where
  rootProject : Option Proj
  parent : Option Proj

/-- `Project(directory.name, directory, parent, self)` (context.py 136):
the constructor seeds the member map; its error branch is dead
(`projInit_eq`). -/
def projectNew (name : String) : Proj :=
  match projInit name with
  | .ok p => p
  | .error _ => Proj.mk name MemberList.nil

/-- The `try` body and `except ProjectLoaderError` handler of
`Context.load_project` (context.py 137-165), entered after `add_child`
succeeded (`stIn` already holds the updated parent): trigger
`on_project_init`; adopt the project as root project when none was set; when
no script was found and one is required, raise `ProjectLoaderError(project)`;
otherwise run the script when one was found; trigger `on_project_loaded` on
success.  The handler undoes the root assignment and the parent registration
exactly when the error's project is this call's project, then re-raises. -/
def loadProjectBody (stIn : LoadState) (hasRoot : Bool) (project : Proj)
    (scriptFound require : Bool) (outcome : ScriptOutcome) :
    LoadState × List EventRecord × Except LoadError Proj :=
  let stRoot : LoadState :=
    if hasRoot then stIn else { stIn with rootProject := some project }
  let rollback : LoadState :=
    { rootProject := if hasRoot then stRoot.rootProject else none,
      parent := match stRoot.parent with
        | some par => some (removeChild par project.projectName)
        | none => none }
  if scriptFound = false ∧ require = true then
    (rollback, [EventRecord.onProjectInit project.projectName], .error .loaderErrorOwn)
  else if scriptFound then
    match outcome with
    | .ok =>
      (stRoot, [EventRecord.onProjectInit project.projectName,
        EventRecord.onProjectLoaded project.projectName], .ok project)
    | .raiseOwn =>
      (rollback, [EventRecord.onProjectInit project.projectName], .error .loaderErrorOwn)
    | .raiseOther =>
      (stRoot, [EventRecord.onProjectInit project.projectName], .error .loaderErrorOther)
  else
    (stRoot, [EventRecord.onProjectInit project.projectName,
      EventRecord.onProjectLoaded project.projectName], .ok project)

/-- `Context.load_project` (context.py 102-167).  Script discovery through
the project finder is abstracted by `scriptFound`; `require` is
`require_buildscript`; `outcome` is the script runner's behavior.  The
parent registration `parent.add_child(project)` happens first; its
`ValueError` is not a `ProjectLoaderError` and propagates without any
rollback (nothing was registered). -/
def loadProject (st : LoadState) (dirName : String) (scriptFound require : Bool)
    (outcome : ScriptOutcome) : LoadState × List EventRecord × Except LoadError Proj :=
  let hasRoot := st.rootProject.isSome
  let project := projectNew dirName
  match st.parent with
  | some par =>
    match addChild par project true with
    | .error _ => (st, [], .error .valueError)
    | .ok par1 =>
      loadProjectBody { st with parent := some par1 } hasRoot project scriptFound require outcome
  | none => loadProjectBody st hasRoot project scriptFound require outcome

theorem eraseName_append1 : ∀ (ms : MemberList) (n : String) (m : Member),
    n ∉ ms.names → (ms.append1 n m).eraseName n = ms
  | .nil, n, m, _ => by simp [MemberList.append1, MemberList.eraseName]
  | .cons a b rest, n, m, h => by
    have hna : ¬a = n := fun hc => h (by simp [MemberList.names, hc])
    have hrest : n ∉ rest.names := fun hc => h (by simp [MemberList.names, hc])
    simp [MemberList.append1, MemberList.eraseName, hna,
      eraseName_append1 rest n m hrest]

theorem removeChild_addChild {par c q : Proj} (h : addChild par c true = .ok q) :
    removeChild q c.projectName = par := by
  by_cases hmem : c.projectName ∈ par.membersNames
  · simp [addChild, hmem] at h
  · simp only [addChild, hmem, if_false, if_true, Except.ok.injEq] at h
    cases par with
    | mk n ms =>
      rw [← h]
      have hmem' : c.projectName ∉ ms.names := hmem
      show Proj.mk n ((ms.append1 c.projectName (Member.proj c)).eraseName c.projectName)
          = Proj.mk n ms
      rw [eraseName_append1 ms c.projectName (Member.proj c) hmem']

/-- C8: whenever `Context.load_project` propagates a `ProjectLoaderError`
whose project is the project being loaded, the registration is undone before
the error propagates: the partial project is removed from its parent's
member map and, if it had just become the root project, the root project is
cleared again — the context state equals the state before the call. -/
theorem c8_load_project_rolls_back_on_loader_error (st : LoadState) (dirName : String)
    (scriptFound require : Bool) (outcome : ScriptOutcome)
    (h : (loadProject st dirName scriptFound require outcome).2.2 = .error .loaderErrorOwn) :
    (loadProject st dirName scriptFound require outcome).1 = st := by
  obtain ⟨root, parent⟩ := st
  cases parent with
  | none =>
    cases root <;> cases scriptFound <;> cases require <;> cases outcome <;>
      simp_all [loadProject, loadProjectBody]
  | some par =>
    cases hadd : addChild par (projectNew dirName) true with
    | error e =>
      cases root <;> cases scriptFound <;> cases require <;> cases outcome <;>
        simp_all [loadProject, loadProjectBody]
    | ok par1 =>
      have hrem : removeChild par1 (projectNew dirName).projectName = par :=
        removeChild_addChild hadd
      cases root <;> cases scriptFound <;> cases require <;> cases outcome <;>
        simp_all [loadProject, loadProjectBody]

/-- Witness for C8: loading a project `child` under a parent with no build
script while one is required raises the loader error for `child` itself, and
the state — root project unset, parent with empty member map — is exactly
restored. -/
theorem c8_load_project_rolls_back_on_loader_error_witness :
    (loadProject ⟨none, some (Proj.mk "p" .nil)⟩ "child" false true .ok).1
      = ⟨none, some (Proj.mk "p" .nil)⟩ :=
  c8_load_project_rolls_back_on_loader_error ⟨none, some (Proj.mk "p" .nil)⟩ "child"
    false true .ok
    (by simp [loadProject, loadProjectBody, projectNew, projInit_eq, addChild,
      Proj.projectName, Proj.members, Proj.membersNames, MemberList.names, seededMembers])

/-! ## Property lineage and Task.get_relationships (task.py 125-148) -/

/-- The owner of a supplier that is a property (`supplier.owner`,
task.py 134): a task (identified by name), some other object, or none. -/
inductive SupOwner where
  | taskOwner (task : String)
  | otherOwner
  | noOwner
  deriving DecidableEq

/-- Modelled from the spec (§3, §9): a supplier term.  `leaf` covers the
non-property suppliers with no upstream (a literal, a void supplier, and the
`TaskSupplier` of supplier.py 18-31, whose `derived_from` is empty);
`mapped` wraps one upstream supplier; a property node carries its owner and,
when bound to a supplier, that supplier (which is what its `derived_from`
yields).  Each node carries an `id` standing for object identity, which the
visited set of `lineage()` uses. -/
inductive Sup where
  | leaf (id : Nat)
  | mapped (id : Nat) (upstream : Sup)
  | propertyOf (id : Nat) (owner : SupOwner)
  | propertyBound (id : Nat) (owner : SupOwner) (src : Sup)
  deriving DecidableEq

/-- The node identity of a supplier term. -/
def Sup.nodeId : Sup → Nat
  | .leaf i => i
  | .mapped i _ => i
  | .propertyOf i _ => i
  | .propertyBound i _ _ => i

/-- The task owning the supplier when the supplier is a property owned by a
task (`isinstance(supplier, Property) and isinstance(supplier.owner, Task)`,
task.py 134). -/
def Sup.taskOwner? : Sup → Option String
  | .propertyOf _ (.taskOwner u) => some u
  | .propertyBound _ (.taskOwner u) _ => some u
  | _ => none

/-- Modelled from the spec (§3): `Property.lineage()` — a DFS from the
property over `derived_from()`, visiting each node once (the visited set
holds node identities), yielding every visited supplier.  Returns the yield
list together with the final visited set. -/
def lineageVisit : Sup → List Nat → List Sup × List Nat
  | s, visited =>
    if s.nodeId ∈ visited then ([], visited)
    else
      match s with
      | .leaf i => ([.leaf i], i :: visited)
      | .mapped i up =>
        let r := lineageVisit up (i :: visited)
        (.mapped i up :: r.1, r.2)
      | .propertyOf i ow => ([.propertyOf i ow], i :: visited)
      | .propertyBound i ow src =>
        let r := lineageVisit src (i :: visited)
        (.propertyBound i ow src :: r.1, r.2)

/-- `property.lineage()`: the visited suppliers in DFS order, the property
itself first. -/
def lineage (p : Sup) : List Sup :=
  (lineageVisit p []).1

/-- The task state `Task.get_relationships` reads (task.py 125-148): the
task's name, its property schema — the property supplier term behind each
key of `__schema__` — and its manually added relationships. -/
structure TaskNode where
  name : String
  schema : List Sup
  rels : List Relationship

/-- A `TaskRelationship` yielded by `get_relationships` (task.py 40): the
target task (by name), the strict flag and the inverse flag. -/
structure TaskRel where
  other : String
  strict : Bool
  inverse : Bool
  deriving DecidableEq

/-- `Task.get_relationships` (task.py 125-148): first the lineage loop — for
every property of the schema and every supplier of its lineage, skip the
property itself (`supplier is property`, task.py 133) and yield a strict,
non-inverse relationship to the owner of every visited supplier that is a
property owned by a task other than this one — then the manually added
relationships, where a selector string is resolved at iteration time by
`resolve`, standing for `self.project.context.resolve_tasks([selector],
relative_to=self.project)` (task.py 141) and returning the matched task
names. -/
def getRelationships (resolve : String → List String) (t : TaskNode) : List TaskRel :=
  (t.schema.flatMap fun p =>
    (lineage p).filterMap fun s =>
      if s.nodeId = p.nodeId then none
      else
        match s.taskOwner? with
        | some u => if u = t.name then none else some ⟨u, true, false⟩
        | none => none)
  ++ t.rels.flatMap fun r =>
    match r.otherTask with
    | .selector sel => (resolve sel).map fun u => ⟨u, r.strict, r.inverse⟩
    | .taskRef u => [⟨u, r.strict, r.inverse⟩]

/-- C4 specification side, following the claim's words: the union of (a) one
relationship `(U, strict := true, inverse := false)` for every property in
the lineage of any of the task's properties that is itself a property owned
by a task `U` different from the task, and (b) every explicitly added
relationship, with selector strings resolved relative to the task's
project. -/
def specRelationships (resolve : String → List String) (t : TaskNode) : List TaskRel :=
  (t.schema.flatMap fun p =>
    (lineage p).filterMap fun s =>
      match s.taskOwner? with
      | some u => if u = t.name then none else some ⟨u, true, false⟩
      | none => none)
  ++ t.rels.flatMap fun r =>
    match r.otherTask with
    | .selector sel => (resolve sel).map fun u => ⟨u, r.strict, r.inverse⟩
    | .taskRef u => [⟨u, r.strict, r.inverse⟩]

theorem flatMapCongrOn {α β : Type} : ∀ (l : List α) (f g : α → List β),
    (∀ a ∈ l, f a = g a) → l.flatMap f = l.flatMap g
  | [], _, _, _ => rfl
  | a :: rest, f, g, h => by
    have hh := h a (by simp)
    have ht := flatMapCongrOn rest f g (fun x hx => h x (by simp [hx]))
    simp [hh, ht]

theorem filterMapCongrOn {α β : Type} : ∀ (l : List α) (f g : α → Option β),
    (∀ a ∈ l, f a = g a) → l.filterMap f = l.filterMap g
  | [], _, _, _ => rfl
  | a :: rest, f, g, h => by
    have hh := h a (by simp)
    have ht := filterMapCongrOn rest f g (fun x hx => h x (by simp [hx]))
    simp [List.filterMap_cons, hh, ht]

/-- C4: for a task whose schema properties are owned by the task itself and
whose node identities are faithful (two lineage nodes with one identity are
one node), `Task.get_relationships` yields exactly the union of the
lineage-derived strict non-inverse relationships to owning tasks other than
the task, and the explicit relationships with selectors resolved relative to
the task's project — the definition read off the code equals the one read
off the specification.  (The skip of the property itself in the code is
subsumed by the owner check, since the property's owner is the task.) -/
theorem c4_get_relationships_union (resolve : String → List String) (t : TaskNode)
    (hown : ∀ p ∈ t.schema, p.taskOwner? = some t.name)
    (hid : ∀ p ∈ t.schema, ∀ s ∈ lineage p, s.nodeId = p.nodeId → s = p) :
    getRelationships resolve t = specRelationships resolve t := by
  unfold getRelationships specRelationships
  refine congrArg (· ++ _) ?_
  refine flatMapCongrOn _ _ _ (fun p hp => ?_)
  refine filterMapCongrOn _ _ _ (fun s hs => ?_)
  by_cases heq : s.nodeId = p.nodeId
  · have hsp : s = p := hid p hp s hs heq
    subst hsp
    simp [hown s hp]
  · simp [heq]

/-- Witness for C4: task `B` has one property bound to a property of task
`A` and one explicit inverse non-strict selector relationship resolving to
`C`; `get_relationships` yields the implicit strict edge to `A` followed by
the resolved explicit edge to `C`, matching the specification reading. -/
theorem c4_get_relationships_union_witness :
    getRelationships (fun _ => ["C"])
        ⟨"B", [Sup.propertyBound 0 (.taskOwner "B") (Sup.propertyOf 1 (.taskOwner "A"))],
          [⟨.selector "x", false, true⟩]⟩
      = specRelationships (fun _ => ["C"])
        ⟨"B", [Sup.propertyBound 0 (.taskOwner "B") (Sup.propertyOf 1 (.taskOwner "A"))],
          [⟨.selector "x", false, true⟩]⟩
    ∧ getRelationships (fun _ => ["C"])
        ⟨"B", [Sup.propertyBound 0 (.taskOwner "B") (Sup.propertyOf 1 (.taskOwner "A"))],
          [⟨.selector "x", false, true⟩]⟩
      = [⟨"A", true, false⟩, ⟨"C", false, true⟩] :=
  ⟨c4_get_relationships_union (fun _ => ["C"])
      ⟨"B", [Sup.propertyBound 0 (.taskOwner "B") (Sup.propertyOf 1 (.taskOwner "A"))],
        [⟨.selector "x", false, true⟩]⟩
      (by decide) (by decide),
    rfl⟩

end KrakenCore
